import Mathlib

/-!
Shallow embedding of the measurement pipeline of the speck motion-tracker
repository: the pixel/world coordinate transforms (src/lib/transforms.ts),
the kinematics engine and linear regression (src/lib/kinematics.ts), the
coordinate store (src/stores/coordinates.ts), the tracking store with its
temporal undo middleware (src/stores/tracking.ts), and the derived-table
assembly (src/features/data-table/hooks/useTableData.ts).

JavaScript numbers are embedded as real numbers; nullable results become
Option values. All definitions are translated from the repository source,
except where a doc comment says the definition is modelled from the spec
(the zundo middleware, an external dependency) or written from the spec
words for a refinement comparison (useTableDataIndexJoin,
derivedPixelsPerUnit).
-/

namespace Speck

/-- A 2D point, pixel-space or world-space depending on context. -/
@[ext]
structure Point where
  x : ℝ
  y : ℝ

/-- The coordinate-system record consumed by the pure transform functions
in src/lib/transforms.ts. -/
structure CoordinateSystem where
  origin : Point
  rotation : ℝ
  yAxisUp : Bool
  pixelsPerUnit : Option ℝ

/-- Embedding of pixelToWorld from src/lib/transforms.ts: translate by the
origin, rotate by minus rotation degrees, optionally flip Y, divide by
pixelsPerUnit; returns none when pixelsPerUnit is null or zero. -/
noncomputable def pixelToWorld (pixel : Point) (system : CoordinateSystem) : Option Point :=
  match system.pixelsPerUnit with
  | none => none
  | some ppu =>
    if ppu = 0 then none
    else
      let translated : Point := ⟨pixel.x - system.origin.x, pixel.y - system.origin.y⟩
      let theta : ℝ := system.rotation * Real.pi / 180
      let c : ℝ := Real.cos theta
      let s : ℝ := Real.sin theta
      let rotated : Point := ⟨translated.x * c + translated.y * s,
                              -translated.x * s + translated.y * c⟩
      let yAdjusted : Point := ⟨rotated.x, if system.yAxisUp then -rotated.y else rotated.y⟩
      some ⟨yAdjusted.x / ppu, yAdjusted.y / ppu⟩

/-- Embedding of worldToPixel from src/lib/transforms.ts: multiply by
pixelsPerUnit, optionally flip Y, rotate by plus rotation degrees, translate
back by the origin; returns none when pixelsPerUnit is null or zero. -/
noncomputable def worldToPixel (world : Point) (system : CoordinateSystem) : Option Point :=
  match system.pixelsPerUnit with
  | none => none
  | some ppu =>
    if ppu = 0 then none
    else
      let scaled : Point := ⟨world.x * ppu, world.y * ppu⟩
      let yAdjusted : Point := ⟨scaled.x, if system.yAxisUp then -scaled.y else scaled.y⟩
      let theta : ℝ := system.rotation * Real.pi / 180
      let c : ℝ := Real.cos theta
      let s : ℝ := Real.sin theta
      let rotated : Point := ⟨yAdjusted.x * c - yAdjusted.y * s,
                              yAdjusted.x * s + yAdjusted.y * c⟩
      some ⟨rotated.x + system.origin.x, rotated.y + system.origin.y⟩

/-- One sample of the kinematics input sequence, from src/lib/kinematics.ts. -/
structure DataPointWithWorld where
  time : ℝ
  x : ℝ
  y : ℝ

/-- The velocity record returned by calculateVelocity. -/
structure Velocity where
  vx : ℝ
  vy : ℝ
  speed : ℝ

/-- The acceleration record returned by calculateAcceleration. -/
structure Acceleration where
  ax : ℝ
  ay : ℝ

/-- The result record returned by linearRegression. -/
structure RegressionResult where
  slope : ℝ
  intercept : ℝ
  rSquared : ℝ

/-- Embedding of calculateVelocity from src/lib/kinematics.ts, central
difference at an index. The JavaScript index is a number; the callers only
pass array indices, embedded as a natural number, so the guard
index less-or-equal 0 becomes index = 0 and the guard against
data.length - 1 uses truncated subtraction, which agrees with the
JavaScript comparison on natural inputs (including the empty list). -/
noncomputable def calculateVelocity (data : List DataPointWithWorld) (index : ℕ) :
    Option Velocity :=
  if index ≤ 0 ∨ data.length - 1 ≤ index then none
  else
    match data[index - 1]?, data[index + 1]? with
    | some prev, some next =>
      let dt := next.time - prev.time
      if dt = 0 then none
      else
        let vx := (next.x - prev.x) / dt
        let vy := (next.y - prev.y) / dt
        some ⟨vx, vy, Real.sqrt (vx * vx + vy * vy)⟩
    | _, _ => none

/-- Embedding of calculateAcceleration from src/lib/kinematics.ts, central
difference on the two neighbouring velocities. -/
noncomputable def calculateAcceleration (data : List DataPointWithWorld) (index : ℕ) :
    Option Acceleration :=
  if index ≤ 1 ∨ data.length - 2 ≤ index then none
  else
    match data[index - 1]?, data[index + 1]? with
    | some prev, some next =>
      match calculateVelocity data (index - 1), calculateVelocity data (index + 1) with
      | some vPrev, some vNext =>
        let dt := next.time - prev.time
        if dt = 0 then none
        else some ⟨(vNext.vx - vPrev.vx) / dt, (vNext.vy - vPrev.vy) / dt⟩
      | _, _ => none
    | _, _ => none

/-- Embedding of linearRegression from src/lib/kinematics.ts. The source
accumulates the four sums in one loop over the points; that loop is embedded
as a left fold over a quadruple. -/
noncomputable def linearRegression (points : List Point) : Option RegressionResult :=
  if points.length < 2 then none
  else
    let n : ℝ := points.length
    let sums :=
      points.foldl
        (fun acc p => (acc.1 + p.x, acc.2.1 + p.y, acc.2.2.1 + p.x * p.y, acc.2.2.2 + p.x * p.x))
        ((0 : ℝ), (0 : ℝ), (0 : ℝ), (0 : ℝ))
    let sumX := sums.1
    let sumY := sums.2.1
    let sumXY := sums.2.2.1
    let sumXX := sums.2.2.2
    let denominator := n * sumXX - sumX * sumX
    if denominator = 0 then none
    else
      let slope := (n * sumXY - sumX * sumY) / denominator
      let intercept := (sumY - slope * sumX) / n
      let meanY := sumY / n
      let ssTot := points.foldl (fun acc p => acc + (p.y - meanY) ^ 2) 0
      let ssRes := points.foldl (fun acc p => acc + (p.y - (slope * p.x + intercept)) ^ 2) 0
      let rSquared := if ssTot = 0 then 1 else 1 - ssRes / ssTot
      some ⟨slope, intercept, rSquared⟩

/-- The scale-unit label of the coordinate store; purely cosmetic. -/
inductive ScaleUnit
  | m
  | cm
  | mm
  | ft
  | inch

/-- The data fields of the coordinate store in src/stores/coordinates.ts,
including the cached derived pixelsPerUnit. -/
structure CoordState where
  scalePoint1 : Option Point
  scalePoint2 : Option Point
  scaleDistance : ℝ
  scaleUnit : ScaleUnit
  origin : Point
  rotation : ℝ
  yAxisUp : Bool
  pixelsPerUnit : Option ℝ

/-- The serialized coordinate system handed to the coordinate store's
hydrate action on project load. -/
structure CoordinateSystemRecord where
  scalePoint1 : Option Point
  scalePoint2 : Option Point
  scaleDistance : ℝ
  scaleUnit : ScaleUnit
  origin : Point
  rotation : ℝ
  yAxisUp : Bool

/-- Embedding of recalculatePixelsPerUnit from src/stores/coordinates.ts:
when both scale points are set and the distance is positive, the cached
pixelsPerUnit becomes the pixel distance between the scale points divided by
the real-world distance; otherwise it becomes null. -/
noncomputable def recalculatePixelsPerUnit (state : CoordState) : CoordState :=
  match state.scalePoint1, state.scalePoint2 with
  | some p1, some p2 =>
    if 0 < state.scaleDistance then
      let dx := p2.x - p1.x
      let dy := p2.y - p1.y
      { state with pixelsPerUnit := some (Real.sqrt (dx * dx + dy * dy) / state.scaleDistance) }
    else { state with pixelsPerUnit := none }
  | _, _ => { state with pixelsPerUnit := none }

/-- The initial state of the coordinate store. -/
def initialCoordState : CoordState :=
  { scalePoint1 := none
    scalePoint2 := none
    scaleDistance := 1
    scaleUnit := ScaleUnit.m
    origin := ⟨0, 0⟩
    rotation := 0
    yAxisUp := true
    pixelsPerUnit := none }

/-- The mutating actions of the coordinate store. -/
inductive CoordAction
  | setScalePoint1 (point : Point)
  | setScalePoint2 (point : Point)
  | setScaleDistance (distance : ℝ)
  | setScaleUnit (unit : ScaleUnit)
  | setOrigin (point : Point)
  | setRotation (degrees : ℝ)
  | setYAxisUp (up : Bool)
  | hydrate (system : CoordinateSystemRecord)
  | reset

/-- Embedding of the coordinate store's action handlers from
src/stores/coordinates.ts: the three scale setters and hydrate recalculate
pixelsPerUnit, the remaining setters leave it untouched, reset restores the
initial state. -/
noncomputable def coordStep (action : CoordAction) (state : CoordState) : CoordState :=
  match action with
  | CoordAction.setScalePoint1 point =>
      recalculatePixelsPerUnit { state with scalePoint1 := some point }
  | CoordAction.setScalePoint2 point =>
      recalculatePixelsPerUnit { state with scalePoint2 := some point }
  | CoordAction.setScaleDistance distance =>
      recalculatePixelsPerUnit { state with scaleDistance := distance }
  | CoordAction.setScaleUnit unit => { state with scaleUnit := unit }
  | CoordAction.setOrigin point => { state with origin := point }
  | CoordAction.setRotation degrees => { state with rotation := degrees }
  | CoordAction.setYAxisUp up => { state with yAxisUp := up }
  | CoordAction.hydrate system =>
      recalculatePixelsPerUnit
        { scalePoint1 := system.scalePoint1
          scalePoint2 := system.scalePoint2
          scaleDistance := system.scaleDistance
          scaleUnit := system.scaleUnit
          origin := system.origin
          rotation := system.rotation
          yAxisUp := system.yAxisUp
          pixelsPerUnit := state.pixelsPerUnit }
  | CoordAction.reset => initialCoordState

/-- Written from the spec words, for comparison with the store: the pure
function of (scalePoint1, scalePoint2, scaleDistance) that the cached
pixelsPerUnit must always equal — absent unless both points are set and the
distance is positive, otherwise the pixel distance between the two scale
points divided by the real-world distance. -/
noncomputable def derivedPixelsPerUnit (p1 p2 : Option Point) (d : ℝ) : Option ℝ :=
  match p1, p2 with
  | some a, some b =>
    if 0 < d then
      some (Real.sqrt ((b.x - a.x) * (b.x - a.x) + (b.y - a.y) * (b.y - a.y)) / d)
    else none
  | _, _ => none

/-- The staleness-freedom invariant of claim C5. -/
def coordInvariant (state : CoordState) : Prop :=
  state.pixelsPerUnit =
    derivedPixelsPerUnit state.scalePoint1 state.scalePoint2 state.scaleDistance

/-- Embedding of the coordinate store's own pixelToWorld method from
src/stores/coordinates.ts: when pixelsPerUnit is null or zero (falsy) it
returns the point (0, 0), otherwise the translate/rotate/flip/scale
transform. -/
noncomputable def storePixelToWorld (state : CoordState) (pixel : Point) : Point :=
  match state.pixelsPerUnit with
  | none => ⟨0, 0⟩
  | some ppu =>
    if ppu = 0 then ⟨0, 0⟩
    else
      let translated : Point := ⟨pixel.x - state.origin.x, pixel.y - state.origin.y⟩
      let c : ℝ := Real.cos (state.rotation * Real.pi / 180)
      let s : ℝ := Real.sin (state.rotation * Real.pi / 180)
      let rotated : Point := ⟨translated.x * c + translated.y * s,
                              -translated.x * s + translated.y * c⟩
      let yAdjusted : Point := ⟨rotated.x, if state.yAxisUp then -rotated.y else rotated.y⟩
      ⟨yAdjusted.x / ppu, yAdjusted.y / ppu⟩

/-- Embedding of the coordinate store's own worldToPixel method from
src/stores/coordinates.ts: when pixelsPerUnit is null or zero (falsy) it
returns the point (0, 0), otherwise the inverse transform. -/
noncomputable def storeWorldToPixel (state : CoordState) (world : Point) : Point :=
  match state.pixelsPerUnit with
  | none => ⟨0, 0⟩
  | some ppu =>
    if ppu = 0 then ⟨0, 0⟩
    else
      let scaled : Point := ⟨world.x * ppu, world.y * ppu⟩
      let yAdjusted : Point := ⟨scaled.x, if state.yAxisUp then -scaled.y else scaled.y⟩
      let c : ℝ := Real.cos (state.rotation * Real.pi / 180)
      let s : ℝ := Real.sin (state.rotation * Real.pi / 180)
      let rotated : Point := ⟨yAdjusted.x * c - yAdjusted.y * s,
                              yAdjusted.x * s + yAdjusted.y * c⟩
      ⟨rotated.x + state.origin.x, rotated.y + state.origin.y⟩

/-- One tracked measurement, from src/stores/tracking.ts. -/
structure DataPoint where
  id : String
  frameNumber : ℤ
  time : ℝ
  pixelX : ℝ
  pixelY : ℝ

/-- The partialized slice of the tracking store tracked by the undo
history: dataPoints only, plus the selection, which is excluded from the
history by the partialize option. -/
structure TrackingState where
  dataPoints : List DataPoint
  selectedPointId : Option String

/-- The bound on the undo history, the limit option of the temporal
middleware in src/stores/tracking.ts. -/
def historyLimit : ℕ := 50

/-- The tracking store together with the undo and redo stacks kept by the
temporal middleware. -/
structure TemporalTrackingStore where
  state : TrackingState
  pastStates : List (List DataPoint)
  futureStates : List (List DataPoint)

/-- Modelled from the spec: the zundo temporal middleware (an external
dependency whose code is not part of this repository) wraps every set call
of the tracking store uniformly; each set records the previous partialized
state (dataPoints only, per the partialize option in
src/stores/tracking.ts) as one undo step in a history bounded at 50
entries, and any new mutation clears the redo stack (spec section 5). -/
def recordSet (store : TemporalTrackingStore) (next : TrackingState) : TemporalTrackingStore :=
  let past := store.pastStates ++ [store.state.dataPoints]
  { state := next
    pastStates := past.drop (past.length - historyLimit)
    futureStates := [] }

/-- Modelled from the spec: undo from the zundo temporal middleware — pop
the most recent undo step and restore its dataPoints, pushing the current
dataPoints onto the redo stack; a no-op when the history is empty. -/
def undo (store : TemporalTrackingStore) : TemporalTrackingStore :=
  match store.pastStates.getLast? with
  | none => store
  | some prev =>
    { state := { store.state with dataPoints := prev }
      pastStates := store.pastStates.dropLast
      futureStates := store.state.dataPoints :: store.futureStates }

/-- Embedding of addPoint from src/stores/tracking.ts; the id generated by
crypto.randomUUID is passed in as a parameter. -/
def addPoint (store : TemporalTrackingStore) (id : String) (frameNumber : ℤ)
    (time pixelX pixelY : ℝ) : TemporalTrackingStore :=
  recordSet store
    { store.state with
        dataPoints := store.state.dataPoints ++ [⟨id, frameNumber, time, pixelX, pixelY⟩] }

/-- Helper for updatePoint: mutate the pixel position of the first point
with the given id, as the find-and-mutate in src/stores/tracking.ts does. -/
def updateFirst (id : String) (position : Point) : List DataPoint → List DataPoint
  | [] => []
  | p :: rest =>
    if p.id = id then { p with pixelX := position.x, pixelY := position.y } :: rest
    else p :: updateFirst id position rest

/-- Embedding of updatePoint from src/stores/tracking.ts. -/
def updatePoint (store : TemporalTrackingStore) (id : String) (position : Point) :
    TemporalTrackingStore :=
  recordSet store { store.state with dataPoints := updateFirst id position store.state.dataPoints }

/-- Embedding of deletePoint from src/stores/tracking.ts: remove the point
and clear the selection if it was selected. -/
def deletePoint (store : TemporalTrackingStore) (id : String) : TemporalTrackingStore :=
  recordSet store
    { dataPoints := store.state.dataPoints.filter (fun p => p.id ≠ id)
      selectedPointId :=
        if store.state.selectedPointId = some id then none else store.state.selectedPointId }

/-- Embedding of hydrate from src/stores/tracking.ts: replace the whole
point set and clear the selection. It is an ordinary set call, so the
temporal middleware records it like any other mutation. -/
def hydratePoints (store : TemporalTrackingStore) (points : List DataPoint) :
    TemporalTrackingStore :=
  recordSet store { dataPoints := points, selectedPointId := none }

/-- One row of the assembled data table, from
src/features/data-table/hooks/useTableData.ts. -/
structure TableRow where
  id : String
  rowNumber : ℕ
  frameNumber : ℤ
  time : ℝ
  pixelX : ℝ
  pixelY : ℝ
  worldX : Option ℝ
  worldY : Option ℝ
  vx : Option ℝ
  vy : Option ℝ
  speed : Option ℝ
  ax : Option ℝ
  ay : Option ℝ

/-- The frame-number-sorted points paired with their world coordinates, the
sortedPoints array of useTableData (sort then map pixelToWorld). The
JavaScript comparator sorts ascending by frameNumber and the runtime sort is
stable, embedded as a stable merge sort. -/
noncomputable def sortedWithWorld (dataPoints : List DataPoint) (cs : CoordinateSystem) :
    List (DataPoint × Option Point) :=
  (dataPoints.mergeSort (fun a b => a.frameNumber ≤ b.frameNumber)).map
    (fun point => (point, pixelToWorld ⟨point.pixelX, point.pixelY⟩ cs))

/-- The per-row kinematics sample of useTableData: a sorted row with
computable world coordinates yields a sample carrying its time, a row
without world coordinates yields nothing. -/
def kinOf (pw : DataPoint × Option Point) : Option DataPointWithWorld :=
  match pw.2 with
  | some w => some ⟨pw.1.time, w.x, w.y⟩
  | none => none

/-- The kinematics input sequence of useTableData: only the rows whose
world coordinates are computable, in order. -/
noncomputable def kinematicsData (dataPoints : List DataPoint) (cs : CoordinateSystem) :
    List DataPointWithWorld :=
  (sortedWithWorld dataPoints cs).filterMap kinOf

/-- The shared row-building body of useTableData, parameterized by the
kinematics index the join produced (none when the row was not matched). -/
noncomputable def assembleRowWith (kin : List DataPointWithWorld)
    (kinematicsIndex : Option ℕ) (index : ℕ) (pw : DataPoint × Option Point) : TableRow :=
  let velocity : Option Velocity :=
    match kinematicsIndex with
    | some j => calculateVelocity kin j
    | none => none
  let acceleration : Option Acceleration :=
    match kinematicsIndex with
    | some j => calculateAcceleration kin j
    | none => none
  { id := pw.1.id
    rowNumber := index + 1
    frameNumber := pw.1.frameNumber
    time := pw.1.time
    pixelX := pw.1.pixelX
    pixelY := pw.1.pixelY
    worldX := pw.2.map (fun w => w.x)
    worldY := pw.2.map (fun w => w.y)
    vx := velocity.map (fun v => v.vx)
    vy := velocity.map (fun v => v.vy)
    speed := velocity.map (fun v => v.speed)
    ax := acceleration.map (fun a => a.ax)
    ay := acceleration.map (fun a => a.ay) }

/-- Embedding of useTableData from
src/features/data-table/hooks/useTableData.ts: each sorted row is joined to
the kinematics sequence by findIndex on times within a 0.0001 tolerance. -/
noncomputable def useTableData (dataPoints : List DataPoint) (cs : CoordinateSystem) :
    List TableRow :=
  (sortedWithWorld dataPoints cs).mapIdx
    (fun index pw =>
      assembleRowWith (kinematicsData dataPoints cs)
        ((kinematicsData dataPoints cs).findIdx?
          (fun k => decide (|k.time - pw.1.time| < 0.0001)))
        index pw)

/-- Written from the claim words, for the refinement comparison of C10: the
index-based join — a row with computable world coordinates is matched to
exactly its own position in the filtered kinematics sequence (the number of
world-computable rows before it), and a row without world coordinates
matches no position. -/
noncomputable def useTableDataIndexJoin (dataPoints : List DataPoint) (cs : CoordinateSystem) :
    List TableRow :=
  (sortedWithWorld dataPoints cs).mapIdx
    (fun index pw =>
      assembleRowWith (kinematicsData dataPoints cs)
        (match pw.2 with
         | some _ =>
           some (((sortedWithWorld dataPoints cs).take index).countP (fun q => q.2.isSome))
         | none => none)
        index pw)

/-- The fields of a table row that recalibration must never change: id,
row number, frame number, time and the raw pixel coordinates. -/
def rowKey (r : TableRow) : String × ℕ × ℤ × ℝ × ℝ × ℝ :=
  (r.id, r.rowNumber, r.frameNumber, r.time, r.pixelX, r.pixelY)

/-- Concrete three-sample sequence used by the C2 witness. -/
noncomputable def velWitnessData : List DataPointWithWorld :=
  [⟨0, 0, 0⟩, ⟨1, 1, 2⟩, ⟨2, 4, 6⟩]

/-- Concrete five-sample sequence used by the C3 witness. -/
noncomputable def accWitnessData : List DataPointWithWorld :=
  [⟨0, 0, 0⟩, ⟨1, 2, 0⟩, ⟨2, 4, 0⟩, ⟨3, 10, 0⟩, ⟨4, 16, 0⟩]

end Speck

namespace Speck

/-- C1: with pixelsPerUnit present and nonzero, worldToPixel inverts
pixelToWorld exactly (the real-number idealization of the floating-point
round-trip), and pixelToWorld inverts worldToPixel. -/
theorem transforms_round_trip (s : CoordinateSystem) (ppu : ℝ)
    (hppu : s.pixelsPerUnit = some ppu) (hne : ppu ≠ 0) (p w : Point) :
    (pixelToWorld p s).bind (fun q => worldToPixel q s) = some p ∧
    (worldToPixel w s).bind (fun q => pixelToWorld q s) = some w := by
  have hsc : Real.sin (s.rotation * Real.pi / 180) ^ 2
      + Real.cos (s.rotation * Real.pi / 180) ^ 2 = 1 :=
    Real.sin_sq_add_cos_sq _
  constructor
  · simp only [pixelToWorld, worldToPixel, hppu, if_neg hne, Option.some_bind]
    cases hup : s.yAxisUp <;>
    · simp only [Bool.false_eq_true, if_false, if_true, Option.some.injEq]
      ext
      · field_simp
        linear_combination (p.x - s.origin.x) * hsc
      · field_simp
        linear_combination (p.y - s.origin.y) * hsc
  · simp only [pixelToWorld, worldToPixel, hppu, if_neg hne, Option.some_bind]
    cases hup : s.yAxisUp <;>
    · simp only [Bool.false_eq_true, if_false, if_true, Option.some.injEq]
      ext
      · field_simp
        linear_combination w.x * ppu * hsc
      · field_simp
        linear_combination w.y * ppu * hsc

/-- Witness for C1 at a concrete calibrated system and concrete points. -/
theorem transforms_round_trip_witness :
    (pixelToWorld ⟨3, 4⟩ ⟨⟨0, 0⟩, 0, true, some 100⟩).bind
      (fun q => worldToPixel q ⟨⟨0, 0⟩, 0, true, some 100⟩) = some ⟨3, 4⟩ ∧
    (worldToPixel ⟨1, 2⟩ ⟨⟨0, 0⟩, 0, true, some 100⟩).bind
      (fun q => pixelToWorld q ⟨⟨0, 0⟩, 0, true, some 100⟩) = some ⟨1, 2⟩ :=
  transforms_round_trip ⟨⟨0, 0⟩, 0, true, some 100⟩ 100 rfl (by norm_num) ⟨3, 4⟩ ⟨1, 2⟩

/-- C6: both transforms return none exactly when pixelsPerUnit is absent or
zero; with a present nonzero calibration they always return a point, and
absence is the only failure signal (the functions are total). -/
theorem transforms_none_iff (s : CoordinateSystem) (p w : Point) :
    (pixelToWorld p s = none ↔ s.pixelsPerUnit = none ∨ s.pixelsPerUnit = some 0) ∧
    (worldToPixel w s = none ↔ s.pixelsPerUnit = none ∨ s.pixelsPerUnit = some 0) := by
  rcases hp : s.pixelsPerUnit with _ | ppu
  · simp [pixelToWorld, worldToPixel, hp]
  · by_cases h : ppu = 0 <;> simp [pixelToWorld, worldToPixel, hp, h]

/-- C2: calculateVelocity is none at the first index, the last index and out
of range, and at duplicate timestamps; otherwise it is the central-difference
velocity with speed the Euclidean norm. -/
theorem calculateVelocity_spec (data : List DataPointWithWorld) (index : ℕ) :
    ((index = 0 ∨ data.length ≤ index + 1) → calculateVelocity data index = none) ∧
    (∀ prev next, index ≠ 0 → index + 1 < data.length →
      data[index - 1]? = some prev → data[index + 1]? = some next →
      (next.time - prev.time = 0 → calculateVelocity data index = none) ∧
      (next.time - prev.time ≠ 0 →
        calculateVelocity data index =
          some ⟨(next.x - prev.x) / (next.time - prev.time),
                (next.y - prev.y) / (next.time - prev.time),
                Real.sqrt (((next.x - prev.x) / (next.time - prev.time)) ^ 2 +
                           ((next.y - prev.y) / (next.time - prev.time)) ^ 2)⟩)) := by
  constructor
  · intro h
    have hg : index ≤ 0 ∨ data.length - 1 ≤ index := by
      rcases h with h | h
      · exact Or.inl (Nat.le_of_eq h)
      · exact Or.inr (Nat.sub_le_iff_le_add.mpr h)
    rw [calculateVelocity, if_pos hg]
  · intro prev next h0 hlen hprev hnext
    have hg : ¬ (index ≤ 0 ∨ data.length - 1 ≤ index) := by
      push_neg
      exact ⟨Nat.pos_of_ne_zero h0, by omega⟩
    constructor
    · intro hdt
      rw [calculateVelocity, if_neg hg, hprev, hnext]
      simp only [if_pos hdt]
    · intro hdt
      rw [calculateVelocity, if_neg hg, hprev, hnext]
      simp only [if_neg hdt, Option.some.injEq, Velocity.mk.injEq]
      refine ⟨trivial, trivial, ?_⟩
      rw [sq, sq]

/-- Witness for C2: a concrete three-sample sequence evaluated at its middle
index. -/
theorem calculateVelocity_spec_witness :
    calculateVelocity velWitnessData 1 =
      some ⟨(4 - 0) / (2 - 0), (6 - 0) / (2 - 0),
            Real.sqrt (((4 - 0) / (2 - 0)) ^ 2 + ((6 - 0) / (2 - 0)) ^ 2)⟩ := by
  exact ((calculateVelocity_spec velWitnessData 1).2 ⟨0, 0, 0⟩ ⟨2, 4, 6⟩
    (by norm_num) (by norm_num [velWitnessData]) rfl rfl).2 (by norm_num)

/-- C3: calculateAcceleration is none within two indices of either end (so
never when fewer than five samples exist), none when a neighbouring velocity
is absent or the central time difference is zero, and otherwise the central
difference of the two neighbouring velocities. -/
theorem calculateAcceleration_spec (data : List DataPointWithWorld) (index : ℕ) :
    ((index ≤ 1 ∨ data.length ≤ index + 2) → calculateAcceleration data index = none) ∧
    (data.length < 5 → calculateAcceleration data index = none) ∧
    (∀ prev next, 1 < index → index + 2 < data.length →
      data[index - 1]? = some prev → data[index + 1]? = some next →
      ((calculateVelocity data (index - 1) = none ∨
        calculateVelocity data (index + 1) = none) →
        calculateAcceleration data index = none) ∧
      (∀ vPrev vNext,
        calculateVelocity data (index - 1) = some vPrev →
        calculateVelocity data (index + 1) = some vNext →
        (next.time - prev.time = 0 → calculateAcceleration data index = none) ∧
        (next.time - prev.time ≠ 0 →
          calculateAcceleration data index =
            some ⟨(vNext.vx - vPrev.vx) / (next.time - prev.time),
                  (vNext.vy - vPrev.vy) / (next.time - prev.time)⟩))) := by
  refine ⟨?_, ?_, ?_⟩
  · intro h
    have hg : index ≤ 1 ∨ data.length - 2 ≤ index := by omega
    rw [calculateAcceleration, if_pos hg]
  · intro h
    have hg : index ≤ 1 ∨ data.length - 2 ≤ index := by omega
    rw [calculateAcceleration, if_pos hg]
  · intro prev next h1 hlen hprev hnext
    have hg : ¬ (index ≤ 1 ∨ data.length - 2 ≤ index) := by omega
    constructor
    · intro h
      rw [calculateAcceleration, if_neg hg, hprev, hnext]
      rcases h with h | h
      · rw [h]
      · rw [h]
        cases calculateVelocity data (index - 1) <;> rfl
    · intro vPrev vNext hvp hvn
      constructor
      · intro hdt
        rw [calculateAcceleration, if_neg hg, hprev, hnext, hvp, hvn]
        simp only [if_pos hdt]
      · intro hdt
        rw [calculateAcceleration, if_neg hg, hprev, hnext, hvp, hvn]
        simp only [if_neg hdt]

/-- Witness for C3: a concrete five-sample sequence evaluated at its middle
index. -/
theorem calculateAcceleration_spec_witness :
    calculateAcceleration accWitnessData 2 =
      some ⟨((6 : ℝ) - 2) / (3 - 1), ((0 : ℝ) - 0) / (3 - 1)⟩ := by
  have hv1 : calculateVelocity accWitnessData 1 = some ⟨2, 0, Real.sqrt 4⟩ := by
    rw [accWitnessData, calculateVelocity, if_neg (by norm_num)]
    norm_num
  have hv3 : calculateVelocity accWitnessData 3 = some ⟨6, 0, Real.sqrt 36⟩ := by
    rw [accWitnessData, calculateVelocity, if_neg (by norm_num)]
    norm_num
  exact (((calculateAcceleration_spec accWitnessData 2).2.2 ⟨1, 2, 0⟩ ⟨3, 10, 0⟩
    (by norm_num) (by norm_num [accWitnessData]) rfl rfl).2 ⟨2, 0, Real.sqrt 4⟩
    ⟨6, 0, Real.sqrt 36⟩ hv1 hv3).2 (by norm_num)

/-- The one-pass accumulation of the four regression sums equals the four
mapped sums. -/
theorem foldl_quad (l : List Point) (a b c d : ℝ) :
    l.foldl
      (fun acc p => (acc.1 + p.x, acc.2.1 + p.y, acc.2.2.1 + p.x * p.y, acc.2.2.2 + p.x * p.x))
      (a, b, c, d) =
      (a + (l.map fun p => p.x).sum, b + (l.map fun p => p.y).sum,
       c + (l.map fun p => p.x * p.y).sum, d + (l.map fun p => p.x * p.x).sum) := by
  induction l generalizing a b c d with
  | nil => simp
  | cons p l ih =>
    simp only [List.foldl_cons, List.map_cons, List.sum_cons, ih, Prod.mk.injEq]
    refine ⟨by ring, by ring, by ring, by ring⟩

/-- A left fold that accumulates a pointwise quantity equals the mapped sum. -/
theorem foldl_add_eq_sum (f : Point → ℝ) (l : List Point) (a : ℝ) :
    l.foldl (fun acc p => acc + f p) a = a + (l.map f).sum := by
  induction l generalizing a with
  | nil => simp
  | cons p l ih =>
    simp only [List.foldl_cons, List.map_cons, List.sum_cons, ih]
    ring

/-- C4: linearRegression is none for fewer than two points or a zero
denominator, and otherwise computes the least-squares slope, intercept and
R squared, with R squared defined as 1 when the total sum of squares is
zero. -/
theorem linearRegression_spec (points : List Point) :
    (points.length < 2 → linearRegression points = none) ∧
    (∀ n sumX sumY sumXY sumXX slope intercept : ℝ,
      n = points.length →
      sumX = (points.map fun p => p.x).sum →
      sumY = (points.map fun p => p.y).sum →
      sumXY = (points.map fun p => p.x * p.y).sum →
      sumXX = (points.map fun p => p.x * p.x).sum →
      slope = (n * sumXY - sumX * sumY) / (n * sumXX - sumX * sumX) →
      intercept = (sumY - slope * sumX) / n →
      2 ≤ points.length →
      (n * sumXX - sumX * sumX = 0 → linearRegression points = none) ∧
      (n * sumXX - sumX * sumX ≠ 0 →
        linearRegression points =
          some ⟨slope, intercept,
            if (points.map fun p => (p.y - sumY / n) ^ 2).sum = 0 then 1
            else 1 - (points.map fun p => (p.y - (slope * p.x + intercept)) ^ 2).sum /
                     (points.map fun p => (p.y - sumY / n) ^ 2).sum⟩)) := by
  constructor
  · intro h
    rw [linearRegression, if_pos h]
  · rintro n sumX sumY sumXY sumXX slope intercept rfl rfl rfl rfl rfl rfl rfl hlen
    have h2 : ¬ points.length < 2 := not_lt.mpr hlen
    constructor
    · intro hden
      rw [linearRegression, if_neg h2]
      simp only [foldl_quad, foldl_add_eq_sum, zero_add]
      rw [if_pos hden]
    · intro hden
      rw [linearRegression, if_neg h2]
      simp only [foldl_quad, foldl_add_eq_sum, zero_add]
      rw [if_neg hden]

/-- Witness for C4: three collinear points on the line y = 2x. -/
theorem linearRegression_spec_witness :
    linearRegression [⟨0, 0⟩, ⟨1, 2⟩, ⟨2, 4⟩] = some ⟨2, 0, 1⟩ := by
  have h := ((linearRegression_spec [⟨0, 0⟩, ⟨1, 2⟩, ⟨2, 4⟩]).2 3 3 6 10 5 2 0
    (by norm_num) (by norm_num) (by norm_num) (by norm_num) (by norm_num)
    (by norm_num) (by norm_num) (by norm_num)).2 (by norm_num)
  rw [h]
  norm_num

/-- After any recalculation the cached pixelsPerUnit agrees with the pure
derived function. -/
theorem recalc_invariant (s : CoordState) : coordInvariant (recalculatePixelsPerUnit s) := by
  rcases h1 : s.scalePoint1 with _ | p1 <;> rcases h2 : s.scalePoint2 with _ | p2 <;>
    simp only [coordInvariant, recalculatePixelsPerUnit, derivedPixelsPerUnit, h1, h2]
  split_ifs with h <;> rfl

/-- C5: the staleness-freedom invariant of the coordinate store — the cached
pixelsPerUnit always equals the pure function of (scalePoint1, scalePoint2,
scaleDistance): it holds in the initial state and is preserved by every
setter, hydrate and reset. -/
theorem pixelsPerUnit_never_stale :
    coordInvariant initialCoordState ∧
    ∀ (action : CoordAction) (state : CoordState),
      coordInvariant state → coordInvariant (coordStep action state) := by
  constructor
  · rfl
  · intro action state h
    cases action with
    | setScalePoint1 point => exact recalc_invariant _
    | setScalePoint2 point => exact recalc_invariant _
    | setScaleDistance distance => exact recalc_invariant _
    | setScaleUnit unit => exact h
    | setOrigin point => exact h
    | setRotation degrees => exact h
    | setYAxisUp up => exact h
    | hydrate system => exact recalc_invariant _
    | reset => rfl

/-- Witness for C5: the invariant after a concrete setter call applied to
the initial state, whose invariant the theorem itself provides. -/
theorem pixelsPerUnit_never_stale_witness :
    coordInvariant (coordStep (CoordAction.setScalePoint1 ⟨1, 2⟩) initialCoordState) :=
  pixelsPerUnit_never_stale.2 (CoordAction.setScalePoint1 ⟨1, 2⟩) initialCoordState
    pixelsPerUnit_never_stale.1

/-- C9: when pixelsPerUnit is null or zero, the coordinate store's own
transform methods return the point (0, 0) rather than signalling absence,
and a calibrated system can also genuinely map a point to (0, 0) — so the
two situations are indistinguishable from the return value. -/
theorem store_transform_masks_uncalibrated :
    (∀ (state : CoordState) (pixel world : Point),
      (state.pixelsPerUnit = none ∨ state.pixelsPerUnit = some 0) →
      storePixelToWorld state pixel = ⟨0, 0⟩ ∧ storeWorldToPixel state world = ⟨0, 0⟩) ∧
    (∃ (state : CoordState) (pixel : Point) (ppu : ℝ),
      state.pixelsPerUnit = some ppu ∧ ppu ≠ 0 ∧ storePixelToWorld state pixel = ⟨0, 0⟩) := by
  constructor
  · rintro state pixel world (h | h) <;>
      exact ⟨by simp [storePixelToWorld, h], by simp [storeWorldToPixel, h]⟩
  · refine ⟨⟨none, none, 1, ScaleUnit.m, ⟨5, 5⟩, 0, true, some 1⟩,
      ⟨5, 5⟩, 1, rfl, one_ne_zero, ?_⟩
    simp [storePixelToWorld]

/-- Witness for C9 at the uncalibrated initial state and a concrete point. -/
theorem store_transform_masks_uncalibrated_witness :
    storePixelToWorld initialCoordState ⟨3, 4⟩ = ⟨0, 0⟩ ∧
    storeWorldToPixel initialCoordState ⟨3, 4⟩ = ⟨0, 0⟩ :=
  store_transform_masks_uncalibrated.1 initialCoordState ⟨3, 4⟩ ⟨3, 4⟩ (Or.inl rfl)

/-- Undo right after any recorded set call restores the previous
dataPoints: the set pushed them as the newest history entry and the bounded
truncation only ever drops the oldest entries. -/
theorem undo_recordSet (store : TemporalTrackingStore) (next : TrackingState) :
    (undo (recordSet store next)).state.dataPoints = store.state.dataPoints := by
  unfold undo recordSet
  have hlen : 0 < (store.pastStates ++ [store.state.dataPoints]).length := by
    simp
  have hlim : historyLimit = 50 := rfl
  have hlt : ¬ (store.pastStates ++ [store.state.dataPoints]).length ≤
      (store.pastStates ++ [store.state.dataPoints]).length - historyLimit := by
    omega
  rw [List.getLast?_drop, if_neg hlt, List.getLast?_concat]

/-- Counterexample for C7: a store holding one point, hydrated with a
different point list — a single undo restores exactly the pre-hydrate point
set, which differs from the hydrated one, so hydration is not a
non-undoable fresh baseline. -/
theorem hydrate_undo_restores_counterexample :
    (undo (hydratePoints ⟨⟨[⟨"a", 0, 0, 1, 2⟩], none⟩, [], []⟩
        [⟨"b", 1, 1, 3, 4⟩])).state.dataPoints = [⟨"a", 0, 0, 1, 2⟩] ∧
    (hydratePoints ⟨⟨[⟨"a", 0, 0, 1, 2⟩], none⟩, [], []⟩
        [⟨"b", 1, 1, 3, 4⟩]).state.dataPoints = [⟨"b", 1, 1, 3, 4⟩] ∧
    ([⟨"a", 0, 0, 1, 2⟩] : List DataPoint) ≠ [⟨"b", 1, 1, 3, 4⟩] :=
  ⟨rfl, rfl, by simp⟩

/-- C7 amended: hydrate is recorded in the undo history exactly like each
discrete add, update and delete — after any one of these operations a single
undo restores the previous point set. -/
theorem mutations_each_one_undo_step (store : TemporalTrackingStore)
    (points : List DataPoint) (id : String) (frameNumber : ℤ)
    (time pixelX pixelY : ℝ) (position : Point) :
    (undo (hydratePoints store points)).state.dataPoints = store.state.dataPoints ∧
    (undo (addPoint store id frameNumber time pixelX pixelY)).state.dataPoints
      = store.state.dataPoints ∧
    (undo (updatePoint store id position)).state.dataPoints = store.state.dataPoints ∧
    (undo (deletePoint store id)).state.dataPoints = store.state.dataPoints :=
  ⟨undo_recordSet _ _, undo_recordSet _ _, undo_recordSet _ _, undo_recordSet _ _⟩

/-- Mapping over an index-aware map composes pointwise. -/
theorem map_mapIdx {α β γ : Type _} (l : List α) (f : ℕ → α → β) (g : β → γ) :
    (l.mapIdx f).map g = l.mapIdx fun i a => g (f i a) := by
  simp only [List.mapIdx_eq_enum_map, List.map_map]
  rfl

/-- An index-aware map over a mapped list composes pointwise. -/
theorem mapIdx_map {α β γ : Type _} (l : List α) (h : α → β) (f : ℕ → β → γ) :
    (l.map h).mapIdx f = l.mapIdx fun i a => f i (h a) := by
  simp only [List.mapIdx_eq_enum_map, List.enum_map, List.map_map]
  apply List.map_congr_left
  rintro ⟨i, a⟩ _
  rfl

/-- C8: changing the coordinate system never touches the tracked points (the
assembly is a pure function of them), and the rows of any two assembly runs
agree on id, rowNumber, frameNumber, time, pixelX and pixelY — only the
derived world and kinematics fields can differ. -/
theorem recalibration_preserves_row_identity (dataPoints : List DataPoint)
    (cs1 cs2 : CoordinateSystem) :
    (useTableData dataPoints cs1).map rowKey = (useTableData dataPoints cs2).map rowKey := by
  have key : ∀ cs : CoordinateSystem,
      (useTableData dataPoints cs).map rowKey =
        (dataPoints.mergeSort (fun a b => a.frameNumber ≤ b.frameNumber)).mapIdx
          (fun i p => (p.id, i + 1, p.frameNumber, p.time, p.pixelX, p.pixelY)) := by
    intro cs
    unfold useTableData sortedWithWorld
    rw [map_mapIdx, mapIdx_map]
    rfl
  rw [key cs1, key cs2]

/-- The time carried by a kinematics sample is the time of the row it came
from. -/
theorem kinOf_time (r : DataPoint × Option Point) (k : DataPointWithWorld)
    (h : kinOf r = some k) : k.time = r.1.time := by
  cases hr : r.2 with
  | none => simp [kinOf, hr] at h
  | some w =>
    simp only [kinOf, hr, Option.some.injEq] at h
    rw [← h]

/-- On a list of rows whose times are pairwise separated by more than the
join tolerance, the tolerance-based findIndex over the filtered kinematics
sequence finds exactly the row's own filtered position: the number of
world-computable rows before it when the row is world-computable, and
nothing otherwise. -/
theorem findIdx?_tolerance_eq (l : List (DataPoint × Option Point)) :
    ∀ (i : ℕ) (pw : DataPoint × Option Point),
      l.Pairwise (fun a b => 0.0001 < |a.1.time - b.1.time|) →
      l[i]? = some pw →
      (l.filterMap kinOf).findIdx? (fun k => decide (|k.time - pw.1.time| < 0.0001)) =
        (match pw.2 with
         | some _ => some ((l.take i).countP (fun q => q.2.isSome))
         | none => none) := by
  induction l with
  | nil =>
    intro i pw _ hi
    simp at hi
  | cons q rest ih =>
    intro i pw hpair hi
    rw [List.pairwise_cons] at hpair
    obtain ⟨hq, hrest⟩ := hpair
    match i with
    | 0 =>
      rw [List.getElem?_cons_zero] at hi
      injection hi with hi
      subst hi
      cases hq2 : q.2 with
      | none =>
        rw [List.filterMap_cons]
        simp only [kinOf, hq2]
        rw [List.findIdx?_eq_none_iff]
        intro k hk
        rw [List.mem_filterMap] at hk
        obtain ⟨r, hr, hkr⟩ := hk
        have ht : k.time = r.1.time := kinOf_time r k hkr
        have hsep := hq r hr
        simp only [decide_eq_false_iff_not, not_lt, ht, abs_sub_comm]
        linarith
      | some w =>
        rw [List.filterMap_cons]
        simp only [kinOf, hq2]
        rw [List.findIdx?_cons]
        have hpred : decide
            (|(⟨q.1.time, w.x, w.y⟩ : DataPointWithWorld).time - q.1.time| < 0.0001) = true := by
          simp only [decide_eq_true_eq, sub_self, abs_zero]
          norm_num
        rw [hpred, if_pos rfl]
        simp [List.take_zero]
    | j + 1 =>
      rw [List.getElem?_cons_succ] at hi
      have hmem : pw ∈ rest := List.getElem?_mem hi
      cases hq2 : q.2 with
      | none =>
        rw [List.filterMap_cons]
        simp only [kinOf, hq2]
        rw [ih j pw hrest hi]
        cases hpw2 : pw.2 <;>
          simp [List.take_succ_cons, List.countP_cons, hq2]
      | some w =>
        rw [List.filterMap_cons]
        simp only [kinOf, hq2]
        rw [List.findIdx?_cons]
        have hpred : decide
            (|(⟨q.1.time, w.x, w.y⟩ : DataPointWithWorld).time - pw.1.time| < 0.0001) = false := by
          have hsep := hq pw hmem
          simp only [decide_eq_false_iff_not, not_lt]
          linarith
        rw [hpred, if_neg (by simp), List.findIdx?_succ, ih j pw hrest hi]
        cases hpw2 : pw.2 <;>
          simp [List.take_succ_cons, List.countP_cons, hq2]

/-- Pairwise time separation of the tracked points transfers to the sorted
rows paired with their world coordinates. -/
theorem sortedWithWorld_pairwise (dataPoints : List DataPoint) (cs : CoordinateSystem)
    (hsep : dataPoints.Pairwise (fun a b => 0.0001 < |a.time - b.time|)) :
    (sortedWithWorld dataPoints cs).Pairwise (fun a b => 0.0001 < |a.1.time - b.1.time|) := by
  unfold sortedWithWorld
  rw [List.pairwise_map]
  have hsymm : ∀ {x y : DataPoint},
      0.0001 < |x.time - y.time| → 0.0001 < |y.time - x.time| := by
    intro x y h
    rwa [abs_sub_comm]
  exact ((List.mergeSort_perm dataPoints _).pairwise_iff hsymm).mpr hsep

/-- C10: when all tracked-point times are pairwise separated by more than
the 0.0001 tolerance, the tolerance-based time join of the table assembly is
equivalent to the index-based join: every world-computable row is joined to
its own position in the filtered kinematics sequence and every other row is
joined to nothing. -/
theorem tolerance_join_eq_index_join (dataPoints : List DataPoint) (cs : CoordinateSystem)
    (hsep : dataPoints.Pairwise (fun a b => 0.0001 < |a.time - b.time|)) :
    useTableData dataPoints cs = useTableDataIndexJoin dataPoints cs := by
  have hpair := sortedWithWorld_pairwise dataPoints cs hsep
  unfold useTableData useTableDataIndexJoin
  rw [List.mapIdx_eq_enum_map, List.mapIdx_eq_enum_map]
  apply List.map_congr_left
  rintro ⟨i, pw⟩ hmem
  rw [List.mem_enum_iff_getElem?] at hmem
  simp only [Function.uncurry]
  rw [kinematicsData, findIdx?_tolerance_eq (sortedWithWorld dataPoints cs) i pw hpair hmem]

/-- Witness for C10: two concrete points one second apart under a concrete
calibrated system. -/
theorem tolerance_join_eq_index_join_witness :
    useTableData [⟨"a", 0, 0, 0, 0⟩, ⟨"b", 1, 1, 5, 5⟩] ⟨⟨0, 0⟩, 0, true, some 1⟩ =
      useTableDataIndexJoin [⟨"a", 0, 0, 0, 0⟩, ⟨"b", 1, 1, 5, 5⟩] ⟨⟨0, 0⟩, 0, true, some 1⟩ :=
  tolerance_join_eq_index_join _ _ (by norm_num [List.pairwise_cons])

end Speck
